import Mathlib

/-!
Verification of the `controllers` repository: the BaseControllerV2 state
container (schema-driven persistence/anonymization projections, patch-based
change notification, subscriber set, destroy), the restricted controller
messenger, the rate-limit controller, and the compiled
`TokenDetectionController.detectTokens` routine.

The repository snapshot under verification contains the test suites of
BaseControllerV2, the ControllerMessenger and the RateLimitController, the
declaration file of TokenDetectionController, and the compiled JavaScript of
`TokenDetectionController.detectTokens`.  Where only tests are present, the
corresponding operations are modelled from the specification, as flagged in
each doc comment; `detectTokens` is embedded directly from the compiled
JavaScript.
-/

namespace Controllers

/-- Association-list lookup of a key, mirroring a JavaScript object property
read: the first binding of the key wins, a missing key reads as `undefined`
(`none`). -/
def lookupKey {β : Type} : List (String × β) → String → Option β
  | [], _ => none
  | (k, v) :: rest, key => if key = k then some v else lookupKey rest key

/-- Modelled from the spec: a `persist`/`anonymous` field of a schema entry is
`false` (omit the property), `true` (keep the raw value), or a transforming
function `(value) -> transformed`. -/
inductive Projector (V : Type) where
  | drop
  | keep
  | transform (f : V → V)

/-- Modelled from the spec: per-property schema metadata
`{ persist, anonymous }`. -/
structure SchemaEntry (V : Type) where
  persist : Projector V
  anonymous : Projector V

/-- Truthiness of a schema field: `true` and functions are truthy, `false`
is not. -/
def Projector.truthy {V : Type} : Projector V → Bool
  | .drop => false
  | .keep => true
  | .transform _ => true

/-- The projector that a schema assigns to a key through `pick`
(`anonymous` or `persist`); keys absent from the schema are excluded
(`drop`), per the spec invariant. -/
def projAt {V : Type} (schema : List (String × SchemaEntry V))
    (pick : SchemaEntry V → Projector V) (k : String) : Projector V :=
  ((lookupKey schema k).map pick).getD .drop

/-- Modelled from the spec: the common core of `getAnonymizedState` and
`getPersistentState` from BaseControllerV2 (the implementation file is absent
from the snapshot; only its tests are present).  The state is projected
through the schema: a property is included iff its schema field selected by
`pick` is truthy; a function field transforms the value, `true` keeps the raw
value, `false` or a missing schema entry omits the property. -/
def deriveProjection {V : Type} (state : List (String × V))
    (schema : List (String × SchemaEntry V))
    (pick : SchemaEntry V → Projector V) : List (String × V) :=
  state.filterMap fun kv =>
    match projAt schema pick kv.1 with
    | .keep => some kv
    | .transform f => some (kv.1, f kv.2)
    | .drop => none

/-- Modelled from the spec: `getAnonymizedState(state, schema)` includes a
property iff `schema[key].anonymous` is truthy, transforming through the
anonymizing function when one is given. -/
def getAnonymizedState {V : Type} (state : List (String × V))
    (schema : List (String × SchemaEntry V)) : List (String × V) :=
  deriveProjection state schema SchemaEntry.anonymous

/-- Modelled from the spec: `getPersistentState(state, schema)` is the same
law with `persist` in place of `anonymous`. -/
def getPersistentState {V : Type} (state : List (String × V))
    (schema : List (String × SchemaEntry V)) : List (String × V) :=
  deriveProjection state schema SchemaEntry.persist

theorem lookupKey_eq_none_of_not_mem {β : Type} {l : List (String × β)}
    {k : String} (h : k ∉ l.map Prod.fst) : lookupKey l k = none := by
  induction l with
  | nil => rfl
  | cons p rest ih =>
    obtain ⟨a, v⟩ := p
    simp only [List.map_cons, List.mem_cons] at h
    push_neg at h
    simp only [lookupKey, if_neg h.1]
    exact ih h.2

theorem lookupKey_deriveProjection_of_none {V : Type}
    {state : List (String × V)} {schema : List (String × SchemaEntry V)}
    {pick : SchemaEntry V → Projector V} {k : String}
    (h : lookupKey state k = none) :
    lookupKey (deriveProjection state schema pick) k = none := by
  induction state with
  | nil => rfl
  | cons p rest ih =>
    obtain ⟨a, v⟩ := p
    simp only [lookupKey] at h
    by_cases hk : k = a
    · simp [hk] at h
    · simp only [if_neg hk] at h
      simp only [deriveProjection, List.filterMap_cons]
      cases hp : projAt schema pick a with
      | drop => exact ih h
      | keep =>
        simp only [lookupKey, if_neg hk]
        exact ih h
      | transform f =>
        simp only [lookupKey, if_neg hk]
        exact ih h

/-- Pointwise description of `deriveProjection` on states with no duplicate
keys (JavaScript objects cannot duplicate keys). -/
theorem lookupKey_deriveProjection {V : Type}
    (state : List (String × V)) (schema : List (String × SchemaEntry V))
    (pick : SchemaEntry V → Projector V) (k : String)
    (hnd : (state.map Prod.fst).Nodup) :
    lookupKey (deriveProjection state schema pick) k =
      (lookupKey state k).bind fun v =>
        match projAt schema pick k with
        | .keep => some v
        | .transform f => some (f v)
        | .drop => none := by
  induction state with
  | nil => rfl
  | cons p rest ih =>
    obtain ⟨a, v⟩ := p
    simp only [List.map_cons, List.nodup_cons] at hnd
    by_cases hk : k = a
    · subst hk
      have hrest : lookupKey rest k = none :=
        lookupKey_eq_none_of_not_mem hnd.1
      simp only [deriveProjection, List.filterMap_cons]
      cases hp : projAt schema pick k with
      | drop =>
        have := @lookupKey_deriveProjection_of_none V rest schema pick k hrest
        simp only [deriveProjection] at this
        simp [lookupKey, this, hp]
      | keep => simp [lookupKey, hp]
      | transform f => simp [lookupKey, hp]
    · simp only [deriveProjection, List.filterMap_cons]
      have htail := ih hnd.2
      simp only [deriveProjection] at htail
      cases hp : projAt schema pick a with
      | drop => simpa [lookupKey, if_neg hk] using htail
      | keep => simpa [lookupKey, if_neg hk] using htail
      | transform f => simpa [lookupKey, if_neg hk] using htail

/-- C3: for every state with no duplicate keys and every schema,
`getAnonymizedState` returns a mapping whose key set is exactly the state keys
whose `anonymous` schema field is truthy, each such key mapped to
`anonymous(state[key])` when `anonymous` is a function and to `state[key]`
otherwise; `getPersistentState` satisfies the identical law with `persist`;
both return the empty mapping on empty inputs. -/
theorem projection_laws {V : Type} (state : List (String × V))
    (schema : List (String × SchemaEntry V))
    (hnd : (state.map Prod.fst).Nodup) :
    (∀ k, (lookupKey (getAnonymizedState state schema) k).isSome ↔
      ((lookupKey state k).isSome ∧
        (projAt schema SchemaEntry.anonymous k).truthy = true))
    ∧ (∀ k v, lookupKey state k = some v →
        lookupKey (getAnonymizedState state schema) k =
          match projAt schema SchemaEntry.anonymous k with
          | .keep => some v
          | .transform f => some (f v)
          | .drop => none)
    ∧ (∀ k, (lookupKey (getPersistentState state schema) k).isSome ↔
      ((lookupKey state k).isSome ∧
        (projAt schema SchemaEntry.persist k).truthy = true))
    ∧ (∀ k v, lookupKey state k = some v →
        lookupKey (getPersistentState state schema) k =
          match projAt schema SchemaEntry.persist k with
          | .keep => some v
          | .transform f => some (f v)
          | .drop => none)
    ∧ getAnonymizedState ([] : List (String × V)) [] = []
    ∧ getPersistentState ([] : List (String × V)) [] = [] := by
  have main : ∀ pick : SchemaEntry V → Projector V,
      (∀ k, (lookupKey (deriveProjection state schema pick) k).isSome ↔
        ((lookupKey state k).isSome ∧ (projAt schema pick k).truthy = true))
      ∧ (∀ k v, lookupKey state k = some v →
          lookupKey (deriveProjection state schema pick) k =
            match projAt schema pick k with
            | .keep => some v
            | .transform f => some (f v)
            | .drop => none) := by
    intro pick
    constructor
    · intro k
      rw [lookupKey_deriveProjection state schema pick k hnd]
      cases hs : lookupKey state k with
      | none => simp
      | some v =>
        cases hp : projAt schema pick k with
        | drop => simp [Projector.truthy]
        | keep => simp [Projector.truthy]
        | transform f => simp [Projector.truthy]
    · intro k v hv
      rw [lookupKey_deriveProjection state schema pick k hnd, hv]
      rfl
  exact ⟨(main SchemaEntry.anonymous).1, (main SchemaEntry.anonymous).2,
    (main SchemaEntry.persist).1, (main SchemaEntry.persist).2, rfl, rfl⟩

/-- Witness for C3 at a concrete state and schema: the network property is
anonymized raw, the password is dropped from the anonymized projection but
persisted, and the transaction hash is transformed. -/
theorem projection_laws_witness :
    lookupKey
      (getAnonymizedState [("password", 10), ("network", 2)]
        [("password", ⟨Projector.keep, Projector.drop⟩),
         ("network", ⟨Projector.drop, Projector.keep⟩)]) "network" =
      match projAt
          [("password", ⟨Projector.keep, Projector.drop⟩),
           ("network", ⟨Projector.drop, Projector.keep⟩)]
          SchemaEntry.anonymous "network" with
      | .keep => some 2
      | .transform f => some (f 2)
      | .drop => none :=
  (projection_laws [("password", 10), ("network", 2)]
    [("password", ⟨Projector.keep, Projector.drop⟩),
     ("network", ⟨Projector.drop, Projector.keep⟩)]
    (by decide)).2.1 "network" 2 (by rfl)

/-- Patch operation `{op, path, value?}`; a wholesale state replacement is a
single `replace` at the root path `[]` carrying the entire new state. -/
structure PatchOp (S : Type) where
  op : String
  path : List String
  value : Option S

/-- One subscriber notification: the listener identity together with the
`(newState, patches)` payload it receives. -/
structure Notification (S : Type) where
  listener : Nat
  newState : S
  patches : List (PatchOp S)

/-- Modelled from the spec: the observable fields of a BaseControllerV2 state
container (the implementation file is absent from the snapshot; only its
tests are present).  Listeners are identified by numbers; the subscriber
registry is a duplicate-free list of listener identities. -/
structure Controller (S : Type) where
  state : S
  subscribers : List Nat
  destroyed : Bool

/-- A freshly constructed container: initial state, no subscribers, live.
The schema, consumed only by the pure projection functions, is passed to
those functions directly. -/
def Controller.create {S : Type} (initialState : S) : Controller S :=
  ⟨initialState, [], false⟩

/-- Modelled from the spec: an update recipe either mutates the supplied
draft (captured as the state transformation the mutations amount to), or
returns a replacement value (as a function of the current state), or both —
the invalid case -- or neither. -/
structure Recipe (S : Type) where
  mutateDraft : Option (S → S)
  returnValue : Option (S → S)

/-- Outcome of an `update` call: success with the list of emitted subscriber
notifications, or the `InvalidUpdate` error. -/
inductive UpdateOutcome (S : Type) where
  | ok (notifications : List (Notification S))
  | invalidUpdate

/-- The root-level wholesale replacement patch. -/
def rootReplace {S : Type} (s : S) : List (PatchOp S) := [⟨"replace", [], some s⟩]

/-- Commit a new state: replace `state` and synchronously notify every live
subscriber with `(newState, patches)`; a destroyed container emits no
notifications.  The patch engine freedom of the spec is resolved to the
always-correct single root `replace` (applying it to the old state yields
the new state). -/
def Controller.commit {S : Type} (c : Controller S) (s : S) :
    Controller S × UpdateOutcome S :=
  ({ c with state := s },
   .ok (if c.destroyed then []
        else c.subscribers.map fun l => ⟨l, s, rootReplace s⟩))

/-- Modelled from the spec: `update(recipe)`.  Mutating the draft and
returning a value in the same call signals `InvalidUpdate` and leaves the
container untouched; otherwise the new state is the mutated draft, the
returned replacement, or the unchanged state, and it is committed. -/
def Controller.update {S : Type} (c : Controller S) (r : Recipe S) :
    Controller S × UpdateOutcome S :=
  match r.mutateDraft, r.returnValue with
  | some _, some _ => (c, .invalidUpdate)
  | some f, none => c.commit (f c.state)
  | none, some g => c.commit (g c.state)
  | none, none => c.commit c.state

/-- The notifications emitted by one `update` call (none on `InvalidUpdate`). -/
def Controller.updateNotifications {S : Type} (c : Controller S)
    (r : Recipe S) : List (Notification S) :=
  match (c.update r).2 with
  | .ok ns => ns
  | .invalidUpdate => []

/-- Modelled from the spec: `subscribe(listener)` is idempotent registration
into the subscriber set. -/
def Controller.subscribe {S : Type} (c : Controller S) (l : Nat) :
    Controller S :=
  if l ∈ c.subscribers then c else { c with subscribers := l :: c.subscribers }

/-- Modelled from the spec: `unsubscribe(listener)` removes all registrations
of the listener; it is total, so unsubscribing an unknown listener cannot
throw. -/
def Controller.unsubscribe {S : Type} (c : Controller S) (l : Nat) :
    Controller S :=
  { c with subscribers := c.subscribers.filter fun x => x ≠ l }

/-- Modelled from the spec: `destroy()` is terminal — it clears all
subscribers and permanently suppresses future notifications. -/
def Controller.destroy {S : Type} (c : Controller S) : Controller S :=
  { c with subscribers := [], destroyed := true }

/-- Error signalled on a forbidden direct assignment to `state`. -/
inductive ControllerError where
  | immutabilityViolation

/-- Modelled from the spec: a direct assignment to the `state` property from
outside the container; the property is read-only, so the assignment signals
`ImmutabilityViolation` instead of taking effect. -/
def Controller.setStateDirect {S : Type} (_c : Controller S) (_s : S) :
    Except ControllerError (Controller S) :=
  .error .immutabilityViolation

/-- The schema of the mock controller in the BaseControllerV2 tests:
`{count: {persist: true, anonymous: true}}`. -/
def mockControllerSchema : List (String × SchemaEntry Nat) :=
  [("count", ⟨Projector.keep, Projector.keep⟩)]

/-- C1: starting from a container created with state `{count: 0}`, for any
subscribed listener, `update(() => ({count: 1}))` leaves the state at
`{count: 1}`, notifies the listener exactly once with
`({count: 1}, [{op: "replace", path: [], value: {count: 1}}])`, and both
projections through `{count: {persist: true, anonymous: true}}` return
`{count: 1}`. -/
theorem end_to_end_update (l : Nat) :
    (((Controller.create [("count", 0)]).subscribe l).update
        ⟨none, some fun _ => [("count", 1)]⟩).1.state = [("count", 1)]
    ∧ ((Controller.create [("count", 0)]).subscribe l).updateNotifications
        ⟨none, some fun _ => [("count", 1)]⟩ =
        [⟨l, [("count", 1)], [⟨"replace", [], some [("count", 1)]⟩]⟩]
    ∧ getPersistentState
        (((Controller.create [("count", 0)]).subscribe l).update
          ⟨none, some fun _ => [("count", 1)]⟩).1.state
        mockControllerSchema = [("count", 1)]
    ∧ getAnonymizedState
        (((Controller.create [("count", 0)]).subscribe l).update
          ⟨none, some fun _ => [("count", 1)]⟩).1.state
        mockControllerSchema = [("count", 1)] := by
  refine ⟨rfl, ?_, rfl, rfl⟩
  simp [Controller.updateNotifications, Controller.update, Controller.commit,
    Controller.subscribe, Controller.create, rootReplace]

/-- C2: an update recipe that both mutates the draft and returns a value
signals `InvalidUpdate` and leaves the state (indeed the whole container)
unchanged, on every container. -/
theorem update_both_modes_invalid {S : Type} (c : Controller S)
    (f g : S → S) :
    (c.update ⟨some f, some g⟩).2 = .invalidUpdate
    ∧ (c.update ⟨some f, some g⟩).1.state = c.state
    ∧ (c.update ⟨some f, some g⟩).1 = c :=
  ⟨rfl, rfl, rfl⟩

/-- C7: a direct assignment to `state` from outside the container always
signals `ImmutabilityViolation`; it never succeeds. -/
theorem state_assignment_forbidden {S : Type} (c : Controller S) (s : S) :
    c.setStateDirect s = .error .immutabilityViolation
    ∧ ∀ c' : Controller S, c.setStateDirect s ≠ .ok c' :=
  ⟨rfl, fun c' h => by simp [Controller.setStateDirect] at h⟩

/-- Subscribe the same listener `n` times in a row. -/
def subscribeTimes {S : Type} (c : Controller S) (l : Nat) : Nat → Controller S
  | 0 => c
  | n + 1 => (subscribeTimes c l n).subscribe l

/-- How many of the notifications of one update went to listener `l`. -/
def notifyCount {S : Type} (ns : List (Notification S)) (l : Nat) : Nat :=
  ns.countP fun n => n.listener == l

theorem subscribe_destroyed {S : Type} (c : Controller S) (l : Nat) :
    (c.subscribe l).destroyed = c.destroyed := by
  unfold Controller.subscribe
  split <;> rfl

theorem subscribe_state {S : Type} (c : Controller S) (l : Nat) :
    (c.subscribe l).state = c.state := by
  unfold Controller.subscribe
  split <;> rfl

theorem subscribe_nodup {S : Type} {c : Controller S} (l : Nat)
    (h : c.subscribers.Nodup) : (c.subscribe l).subscribers.Nodup := by
  unfold Controller.subscribe
  split <;> simp_all

theorem mem_subscribe_self {S : Type} (c : Controller S) (l : Nat) :
    l ∈ (c.subscribe l).subscribers := by
  unfold Controller.subscribe
  split <;> simp_all

theorem subscribeTimes_destroyed {S : Type} (c : Controller S) (l n : Nat) :
    (subscribeTimes c l n).destroyed = c.destroyed := by
  induction n with
  | zero => rfl
  | succ n ih => rw [subscribeTimes, subscribe_destroyed, ih]

theorem subscribeTimes_nodup {S : Type} {c : Controller S} (l : Nat)
    (h : c.subscribers.Nodup) (n : Nat) :
    (subscribeTimes c l n).subscribers.Nodup := by
  induction n with
  | zero => exact h
  | succ n ih => exact subscribe_nodup l ih

theorem mem_subscribeTimes {S : Type} (c : Controller S) (l : Nat) {n : Nat}
    (h : 1 ≤ n) : l ∈ (subscribeTimes c l n).subscribers := by
  obtain ⟨m, rfl⟩ := Nat.exists_eq_add_of_le h
  rw [Nat.add_comm]
  exact mem_subscribe_self _ l

theorem notifyCount_map {S : Type} (subs : List Nat) (s : S)
    (p : List (PatchOp S)) (l : Nat) :
    notifyCount (subs.map fun x => Notification.mk x s p) l = subs.count l := by
  unfold notifyCount
  rw [List.countP_map]
  rfl

/-- On a live container, a valid recipe produces one notification per
registered subscriber. -/
theorem updateNotifications_live {S : Type} (c : Controller S) (r : Recipe S)
    (hd : c.destroyed = false)
    (hr : r.mutateDraft = none ∨ r.returnValue = none) :
    ∃ s, c.updateNotifications r =
      c.subscribers.map fun l => Notification.mk l s (rootReplace s) := by
  obtain ⟨mf, rv⟩ := r
  unfold Controller.updateNotifications Controller.update Controller.commit
  cases mf with
  | none =>
    cases rv with
    | none => exact ⟨c.state, by simp [hd]⟩
    | some g => exact ⟨g c.state, by simp [hd]⟩
  | some f =>
    cases rv with
    | none => exact ⟨f c.state, by simp [hd]⟩
    | some g => simp at hr

/-- C5: subscribing the same listener `N ≥ 1` times to a live container and
then performing one successful update notifies that listener exactly once; a
single unsubscribe after the `N` subscriptions removes the listener entirely,
so the next update notifies it zero times; and unsubscribing a listener that
was never subscribed is a no-op (the operation is total, hence cannot
throw). -/
theorem subscriber_set_semantics {S : Type} (c : Controller S) (l N : Nat)
    (r : Recipe S) (hnd : c.subscribers.Nodup) (hd : c.destroyed = false)
    (hr : r.mutateDraft = none ∨ r.returnValue = none) (hN : 1 ≤ N) :
    notifyCount ((subscribeTimes c l N).updateNotifications r) l = 1
    ∧ notifyCount (((subscribeTimes c l N).unsubscribe l).updateNotifications r) l = 0
    ∧ l ∉ ((subscribeTimes c l N).unsubscribe l).subscribers
    ∧ (l ∉ c.subscribers → c.unsubscribe l = c) := by
  have hd' : (subscribeTimes c l N).destroyed = false := by
    rw [subscribeTimes_destroyed, hd]
  have hnd' := subscribeTimes_nodup l hnd N
  have hmem := mem_subscribeTimes c l hN
  refine ⟨?_, ?_, ?_, ?_⟩
  · obtain ⟨s, hs⟩ := updateNotifications_live _ r hd' hr
    rw [hs, notifyCount_map]
    exact List.count_eq_one_of_mem hnd' hmem
  · have hd'' : ((subscribeTimes c l N).unsubscribe l).destroyed = false := hd'
    obtain ⟨s, hs⟩ := updateNotifications_live _ r hd'' hr
    rw [hs, notifyCount_map]
    rw [List.count_eq_zero]
    intro hmem'
    simp [Controller.unsubscribe] at hmem'
  · intro hmem'
    simp [Controller.unsubscribe] at hmem'
  · intro hout
    have hfil : c.subscribers.filter (fun x => x ≠ l) = c.subscribers :=
      List.filter_eq_self.mpr fun x hx => by
        simp only [ne_eq, decide_eq_true_eq]
        exact fun h => hout (h ▸ hx)
    unfold Controller.unsubscribe
    rw [hfil]

/-- Witness for C5: a fresh container over `Nat` state, listener 7 subscribed
twice, update by replacement. -/
theorem subscriber_set_semantics_witness :
    notifyCount ((subscribeTimes (Controller.create (0 : Nat)) 7 2).updateNotifications
        ⟨none, some fun s => s + 1⟩) 7 = 1
    ∧ notifyCount (((subscribeTimes (Controller.create (0 : Nat)) 7 2).unsubscribe 7).updateNotifications
        ⟨none, some fun s => s + 1⟩) 7 = 0
    ∧ 7 ∉ ((subscribeTimes (Controller.create (0 : Nat)) 7 2).unsubscribe 7).subscribers
    ∧ (7 ∉ (Controller.create (0 : Nat)).subscribers →
        (Controller.create (0 : Nat)).unsubscribe 7 = Controller.create (0 : Nat)) :=
  subscriber_set_semantics (Controller.create (0 : Nat)) 7 2
    ⟨none, some fun s => s + 1⟩ List.nodup_nil rfl (Or.inl rfl) (by decide)

/-- One externally invocable operation on a container. -/
inductive ControllerOp (S : Type) where
  | update (r : Recipe S)
  | subscribe (l : Nat)
  | unsubscribe (l : Nat)
  | destroy

/-- Step semantics of one container operation: the resulting container and
the subscriber notifications the step emitted. -/
def ControllerOp.step {S : Type} (c : Controller S) :
    ControllerOp S → Controller S × List (Notification S)
  | .update r => ((c.update r).1, c.updateNotifications r)
  | .subscribe l => (c.subscribe l, [])
  | .unsubscribe l => (c.unsubscribe l, [])
  | .destroy => (c.destroy, [])

/-- Run a sequence of container operations, accumulating every notification
emitted along the way. -/
def runOps {S : Type} (c : Controller S) :
    List (ControllerOp S) → Controller S × List (Notification S)
  | [] => (c, [])
  | op :: rest =>
    let p := ControllerOp.step c op
    let q := runOps p.1 rest
    (q.1, p.2 ++ q.2)

theorem step_destroyed {S : Type} (c : Controller S) (op : ControllerOp S)
    (h : c.destroyed = true) :
    (ControllerOp.step c op).1.destroyed = true
    ∧ (ControllerOp.step c op).2 = [] := by
  cases op with
  | update r =>
    obtain ⟨mf, rv⟩ := r
    unfold ControllerOp.step Controller.update Controller.updateNotifications
      Controller.commit
    cases mf <;> cases rv <;> simp [Controller.update, Controller.commit, h]
  | subscribe l => exact ⟨(subscribe_destroyed c l).trans h, rfl⟩
  | unsubscribe l => exact ⟨h, rfl⟩
  | destroy => exact ⟨rfl, rfl⟩

theorem runOps_destroyed {S : Type} (c : Controller S)
    (ops : List (ControllerOp S)) (h : c.destroyed = true) :
    (runOps c ops).2 = [] := by
  induction ops generalizing c with
  | nil => rfl
  | cons op rest ih =>
    unfold runOps
    have hs := step_destroyed c op h
    simp only [hs.2, List.nil_append]
    exact ih _ hs.1

/-- C6: after `destroy()`, no sequence of subsequent operations — updates
included — ever produces a subscriber notification. -/
theorem destroy_silences {S : Type} (c : Controller S)
    (ops : List (ControllerOp S)) :
    (runOps c.destroy ops).2 = [] :=
  runOps_destroyed c.destroy ops rfl

/-- Errors signalled by the messenger: a restricted call outside the grant,
or a call to an action with no registered handler. -/
inductive MessengerError where
  | forbiddenAction
  | noSuchAction

/-- Modelled from the spec: the unrestricted controller messenger's action
registry (the ControllerMessenger implementation is absent from the snapshot;
only tests use it).  Each fully-qualified action name maps to exactly one
handler. -/
structure ControllerMessenger (Arg Res : Type) where
  handlers : List (String × (Arg → Res))

/-- Modelled from the spec: a restricted messenger view — the unrestricted
bus together with the bound namespace and the immutable allow-list of action
names granted at construction. -/
structure RestrictedMessenger (Arg Res : Type) where
  bus : ControllerMessenger Arg Res
  name : String
  allowedActions : List String

/-- Dispatch on the unrestricted bus: look up the single handler and invoke
it, returning its result; the second component records each handler
invocation performed (by action name), so "invoked exactly once" is the
trace having length one. -/
def ControllerMessenger.call {Arg Res : Type} (m : ControllerMessenger Arg Res)
    (action : String) (a : Arg) : Except MessengerError Res × List String :=
  match lookupKey m.handlers action with
  | some h => (.ok (h a), [action])
  | none => (.error .noSuchAction, [])

/-- Modelled from the spec: `call` on a restricted messenger checks
membership of the action name in the allow-list before delegating to the
unrestricted bus, and fails fast with `ForbiddenAction` (dispatching
nothing) outside the grant. -/
def RestrictedMessenger.call {Arg Res : Type}
    (m : RestrictedMessenger Arg Res) (action : String) (a : Arg) :
    Except MessengerError Res × List String :=
  if action ∈ m.allowedActions then m.bus.call action a
  else (.error .forbiddenAction, [])

/-- C4: on every restricted messenger, `call` on an action name outside
`allowedActions` signals `ForbiddenAction` without dispatching any handler,
and `call` on an allowed action name with a registered handler invokes that
handler exactly once and returns its result. -/
theorem restricted_call_spec {Arg Res : Type}
    (m : RestrictedMessenger Arg Res) (action : String) (a : Arg) :
    (action ∉ m.allowedActions →
      m.call action a = (.error .forbiddenAction, []))
    ∧ ∀ h : Arg → Res, action ∈ m.allowedActions →
        lookupKey m.bus.handlers action = some h →
        m.call action a = (.ok (h a), [action]) := by
  constructor
  · intro hout
    unfold RestrictedMessenger.call
    rw [if_neg hout]
  · intro h hin hreg
    unfold RestrictedMessenger.call ControllerMessenger.call
    rw [if_pos hin, hreg]

/-- Witness for C4: a bus with the `RateLimitController:call` handler and a
grant containing exactly that name. -/
theorem restricted_call_spec_witness :
    (RestrictedMessenger.call
        ⟨⟨[("RateLimitController:call", fun n : Nat => n + 1)]⟩,
         "RateLimitController", ["RateLimitController:call"]⟩
        "SubjectMetadataController:getState" 5 =
      (.error .forbiddenAction, []))
    ∧ (RestrictedMessenger.call
        ⟨⟨[("RateLimitController:call", fun n : Nat => n + 1)]⟩,
         "RateLimitController", ["RateLimitController:call"]⟩
        "RateLimitController:call" 5 = (.ok 6, ["RateLimitController:call"])) :=
  ⟨(restricted_call_spec
      ⟨⟨[("RateLimitController:call", fun n : Nat => n + 1)]⟩,
       "RateLimitController", ["RateLimitController:call"]⟩
      "SubjectMetadataController:getState" 5).1 (by decide),
   (restricted_call_spec
      ⟨⟨[("RateLimitController:call", fun n : Nat => n + 1)]⟩,
       "RateLimitController", ["RateLimitController:call"]⟩
      "RateLimitController:call" 5).2 (fun n => n + 1) (by decide) rfl⟩

/-- Modelled from the spec: the rate limiter's per-API-type call budget
state (the RateLimitController implementation is absent from the snapshot;
only its tests are present).  `callCounts` counts calls of each type in the
current window; `timerActive` records whether a reset timer is pending for
the type. -/
structure RateLimiter where
  rateLimitCount : Nat
  callCounts : String → Nat
  timerActive : String → Bool

/-- A rate limiter constructed with budget `budget`: all counts zero, no
pending timers. -/
def freshRateLimiter (budget : Nat) : RateLimiter :=
  ⟨budget, fun _ => 0, fun _ => false⟩

/-- Modelled from the spec: `call` for an API type.  At or above budget it
returns `false` without invoking the underlying action; otherwise it
increments the count, invokes the underlying action, returns `true`, and —
if this is the very first call of the type since the last reset — schedules
the reset timer.  The third component is the number of underlying-action
invocations this call performed. -/
def RateLimiter.call (rl : RateLimiter) (t : String) :
    RateLimiter × Bool × Nat :=
  if rl.rateLimitCount ≤ rl.callCounts t then (rl, false, 0)
  else
    ({ rl with
        callCounts := fun u => if u = t then rl.callCounts t + 1 else rl.callCounts u,
        timerActive := fun u =>
          if u = t then (if rl.callCounts t = 0 then true else rl.timerActive t)
          else rl.timerActive u },
     true, 1)

/-- Modelled from the spec: the reset timer for a type fires — the count for
that type resets to zero and no new timer is scheduled until the next call. -/
def RateLimiter.timerFire (rl : RateLimiter) (t : String) : RateLimiter :=
  { rl with
      callCounts := fun u => if u = t then 0 else rl.callCounts u,
      timerActive := fun u => if u = t then false else rl.timerActive u }

/-- C8: with `rateLimitCount = 1`, the first call for a type returns `true`
and invokes the underlying action once; a second call before the window
elapses returns `false` with no further invocation; when the window timer
fires the count resets to zero, so a third call returns `true` again — two
underlying invocations in total. -/
theorem rate_limit_window (t : String) :
    ((freshRateLimiter 1).call t).2 = (true, 1)
    ∧ (((freshRateLimiter 1).call t).1.call t).2 = (false, 0)
    ∧ ((((freshRateLimiter 1).call t).1.call t).1.timerFire t).callCounts t = 0
    ∧ (((((freshRateLimiter 1).call t).1.call t).1.timerFire t).call t).2 =
        (true, 1)
    ∧ ((freshRateLimiter 1).call t).2.2
        + (((freshRateLimiter 1).call t).1.call t).2.2
        + (((((freshRateLimiter 1).call t).1.call t).1.timerFire t).call t).2.2
      = 2 := by
  simp [freshRateLimiter, RateLimiter.call, RateLimiter.timerFire]

/-- An entry of the token list consumed by `detectTokens`
(`tokenList[key]` in `dist/assets/TokenDetectionController.js`). -/
structure TokenInfo where
  decimals : Nat
  symbol : String
  aggregators : List String
  deriving DecidableEq

/-- A token object pushed onto `tokensToAdd` by `detectTokens` (lines
182-188 of `dist/assets/TokenDetectionController.js`). -/
structure DetectedToken where
  address : String
  decimals : Nat
  symbol : String
  aggregators : List String
  isERC721 : Bool
  deriving DecidableEq

/-- The batch split of `detectTokens` (lines 158-160 of
`dist/assets/TokenDetectionController.js`):
`sliceOfTokensToDetect[0] = tokensToDetect.slice(0, 1000)` and
`sliceOfTokensToDetect[1] = tokensToDetect.slice(1000, tokensToDetect.length - 1)`.
JavaScript `slice(start, end)` drops `start` elements and keeps
`end - start` more; for the empty list the negative end index also yields
`[]`, as the truncated subtraction does here. -/
def tokensToDetectSlices {α : Type} (tokensToDetect : List α) : List (List α) :=
  [tokensToDetect.take 1000,
   (tokensToDetect.drop 1000).take (tokensToDetect.length - 1 - 1000)]

/-- The ignore test of `detectTokens` (lines 174-179): with a nonempty
`ignoredTokens` list, `ignoredTokens.find(a => a === toChecksumHexAddress(tokenAddress))`;
with an empty list, `ignored` stays `undefined`. -/
def isIgnored (checksum : String → String) (ignoredTokens : List String)
    (addr : String) : Option String :=
  if ignoredTokens.length ≠ 0 then ignoredTokens.find? fun a => a = checksum addr
  else none

/-- JavaScript `String.prototype.toLowerCase` on ASCII addresses, embedded
as a character-wise lowercase map. -/
def jsToLowerCase (s : String) : String := ⟨s.data.map Char.toLower⟩

/-- The case-insensitive token list key of `detectTokens` (line 180):
`Object.keys(tokenList).find(i => i.toLowerCase() === tokenAddress.toLowerCase()) || ''`. -/
def caseInsensitiveTokenKey (tokenList : List (String × TokenInfo))
    (addr : String) : String :=
  ((tokenList.map Prod.fst).find? fun i =>
    jsToLowerCase i = jsToLowerCase addr).getD ""

/-- The balances loop of `detectTokens` (lines 172-190): for each address in
the balances object, a non-ignored token is pushed with the token list entry's
metadata and `isERC721: false`; reading the metadata of an address whose
case-insensitive key is missing from `tokenList` throws, aborting the whole
slice (`none`) — `safelyExecute` then swallows the error. -/
def processBalances (checksum : String → String)
    (tokenList : List (String × TokenInfo)) (ignoredTokens : List String) :
    List String → Option (List DetectedToken)
  | [] => some []
  | addr :: rest =>
    match isIgnored checksum ignoredTokens addr with
    | some _ => processBalances checksum tokenList ignoredTokens rest
    | none =>
      match lookupKey tokenList (caseInsensitiveTokenKey tokenList addr) with
      | none => none
      | some info =>
        (processBalances checksum tokenList ignoredTokens rest).map
          fun ts =>
            DetectedToken.mk addr info.decimals info.symbol info.aggregators
              false :: ts

/-- One slice of the `detectTokens` main loop (lines 170-194): fetch the
balances for the slice, build `tokensToAdd`, and call `addDetectedTokens`
only when `tokensToAdd.length` is nonzero; an error inside the slice is
swallowed by `safelyExecute`.  `getBalancesInSingleCall` is embedded by the
list of token addresses keying the balances object it returns.  The result
collects the argument of each `addDetectedTokens` call. -/
def runSlice (checksum : String → String)
    (getBalancesInSingleCall : String → List String → List String)
    (selectedAddress : String) (tokenList : List (String × TokenInfo))
    (ignoredTokens : List String) (slice : List String) :
    List (List DetectedToken) :=
  match processBalances checksum tokenList ignoredTokens
      (getBalancesInSingleCall selectedAddress slice) with
  | none => []
  | some tokensToAdd => if tokensToAdd.length ≠ 0 then [tokensToAdd] else []

/-- The slice loop of `detectTokens` (lines 166-195): iterate the slices,
breaking at the first empty slice. -/
def runSlices (checksum : String → String)
    (getBalancesInSingleCall : String → List String → List String)
    (selectedAddress : String) (tokenList : List (String × TokenInfo))
    (ignoredTokens : List String) :
    List (List String) → List (List DetectedToken)
  | [] => []
  | s :: rest =>
    if s.length = 0 then []
    else
      runSlice checksum getBalancesInSingleCall selectedAddress tokenList
        ignoredTokens s ++
      runSlices checksum getBalancesInSingleCall selectedAddress tokenList
        ignoredTokens rest

/-- Embedding of `TokenDetectionController.detectTokens` (lines 143-196 of
`dist/assets/TokenDetectionController.js`), embedded as the sequence of
`addDetectedTokens` calls it performs.  Returns immediately when the
controller is disabled or when `selectedAddress` is empty; otherwise the
token list keys not already among the lower-cased configured token addresses
are split into two batches and scanned. -/
def detectTokens (checksum : String → String)
    (getBalancesInSingleCall : String → List String → List String)
    (disabled : Bool) (selectedAddress : String) (configTokens : List String)
    (tokenList : List (String × TokenInfo)) (ignoredTokens : List String) :
    List (List DetectedToken) :=
  if disabled then []
  else
    let tokensAddresses := configTokens.map jsToLowerCase
    let tokensToDetect :=
      (tokenList.map Prod.fst).filter fun a => !tokensAddresses.contains a
    if selectedAddress = "" then []
    else
      runSlices checksum getBalancesInSingleCall selectedAddress tokenList
        ignoredTokens (tokensToDetectSlices tokensToDetect)

theorem tokensToDetectSlices_append {α : Type} (l : List α)
    (h : 1000 < l.length) :
    l.take 1000 ++ (l.drop 1000).take (l.length - 1 - 1000) = l.dropLast := by
  have h1 : 1000 + (l.length - 1 - 1000) = l.length - 1 := by omega
  rw [← List.take_add, h1, List.dropLast_eq_take]

/-- C9: in the `detectTokens` batch split, a list of at most 1000 undetected
addresses is covered whole by the first batch (the second being empty), while
for more than 1000 distinct addresses the last address of the list lands in
neither batch — its balance is never fetched. -/
theorem batch_split_loses_last {α : Type} (l : List α) :
    (l.length ≤ 1000 → tokensToDetectSlices l = [l, []])
    ∧ (1000 < l.length → l.Nodup → ∀ x, l.getLast? = some x →
        ∀ b ∈ tokensToDetectSlices l, x ∉ b) := by
  constructor
  · intro h
    unfold tokensToDetectSlices
    rw [List.take_of_length_le h, List.drop_eq_nil_of_le h, List.take_nil]
  · intro hlen hnd x hx b hb hxb
    have hsplit : l.dropLast ++ [x] = l := List.dropLast_append_getLast? x hx
    have hnotin : x ∉ l.dropLast := by
      rw [← hsplit] at hnd
      simp [List.nodup_append] at hnd
      exact hnd.2
    apply hnotin
    have hmem : x ∈ l.take 1000 ++ (l.drop 1000).take (l.length - 1 - 1000) := by
      simp only [tokensToDetectSlices, List.mem_cons, List.not_mem_nil,
        or_false, List.mem_singleton] at hb
      rcases hb with h0 | h1
      · exact List.mem_append_left _ (h0 ▸ hxb)
      · exact List.mem_append_right _ (h1 ▸ hxb)
    rwa [tokensToDetectSlices_append l hlen] at hmem

/-- Witness for C9 on the 1001 distinct addresses `0, …, 1000`: the last one,
`1000`, is in neither batch; and a 1000-element list is its own first batch. -/
theorem batch_split_loses_last_witness :
    (∀ b ∈ tokensToDetectSlices (List.range 1001), 1000 ∉ b)
    ∧ tokensToDetectSlices (List.range 1000) = [List.range 1000, []] :=
  ⟨(batch_split_loses_last (List.range 1001)).2
      (by simp) (List.nodup_range 1001) 1000
      (by rw [List.getLast?_eq_getLast _ (by simp), List.getLast_range]),
   (batch_split_loses_last (List.range 1000)).1 (by simp)⟩

theorem not_mem_of_isIgnored_none {checksum : String → String}
    {ignoredTokens : List String} {addr : String}
    (h : isIgnored checksum ignoredTokens addr = none) :
    checksum addr ∉ ignoredTokens := by
  intro hmem
  unfold isIgnored at h
  have hlen : ignoredTokens.length ≠ 0 := by
    intro h0
    rw [List.length_eq_zero] at h0
    subst h0
    simp at hmem
  rw [if_pos hlen, List.find?_eq_none] at h
  exact h (checksum addr) hmem (by simp)

theorem processBalances_sound {checksum : String → String}
    {tokenList : List (String × TokenInfo)} {ignoredTokens : List String} :
    ∀ {addrs : List String} {ts : List DetectedToken},
      processBalances checksum tokenList ignoredTokens addrs = some ts →
      ∀ tok ∈ ts, tok.isERC721 = false ∧ checksum tok.address ∉ ignoredTokens := by
  intro addrs
  induction addrs with
  | nil =>
    intro ts h tok htok
    simp only [processBalances, Option.some.injEq] at h
    subst h
    simp at htok
  | cons addr rest ih =>
    intro ts h tok htok
    simp only [processBalances] at h
    cases hig : isIgnored checksum ignoredTokens addr with
    | some s =>
      rw [hig] at h
      exact ih h tok htok
    | none =>
      rw [hig] at h
      cases hlk : lookupKey tokenList (caseInsensitiveTokenKey tokenList addr) with
      | none => rw [hlk] at h; simp at h
      | some info =>
        rw [hlk] at h
        rcases Option.map_eq_some'.mp h with ⟨ts', hts', rfl⟩
        rcases List.mem_cons.mp htok with rfl | hmem
        · exact ⟨rfl, not_mem_of_isIgnored_none hig⟩
        · exact ih hts' tok hmem

theorem runSlice_sound {checksum : String → String}
    {getBalancesInSingleCall : String → List String → List String}
    {selectedAddress : String} {tokenList : List (String × TokenInfo)}
    {ignoredTokens : List String} {slice : List String} :
    ∀ call ∈ runSlice checksum getBalancesInSingleCall selectedAddress
        tokenList ignoredTokens slice,
      call ≠ [] ∧ ∀ tok ∈ call,
        tok.isERC721 = false ∧ checksum tok.address ∉ ignoredTokens := by
  intro call hcall
  unfold runSlice at hcall
  cases hpb : processBalances checksum tokenList ignoredTokens
      (getBalancesInSingleCall selectedAddress slice) with
  | none => rw [hpb] at hcall; simp at hcall
  | some ts =>
    rw [hpb] at hcall
    dsimp only at hcall
    by_cases hne : ts.length ≠ 0
    · rw [if_pos hne] at hcall
      rcases List.mem_singleton.mp hcall with rfl
      refine ⟨fun hnil => hne (by simp [hnil]), ?_⟩
      exact processBalances_sound hpb
    · rw [if_neg hne] at hcall
      simp at hcall

theorem runSlices_sound {checksum : String → String}
    {getBalancesInSingleCall : String → List String → List String}
    {selectedAddress : String} {tokenList : List (String × TokenInfo)}
    {ignoredTokens : List String} :
    ∀ {slices : List (List String)},
      ∀ call ∈ runSlices checksum getBalancesInSingleCall selectedAddress
          tokenList ignoredTokens slices,
        call ≠ [] ∧ ∀ tok ∈ call,
          tok.isERC721 = false ∧ checksum tok.address ∉ ignoredTokens := by
  intro slices
  induction slices with
  | nil => intro call hcall; simp [runSlices] at hcall
  | cons s rest ih =>
    intro call hcall
    unfold runSlices at hcall
    by_cases hz : s.length = 0
    · rw [if_pos hz] at hcall; simp at hcall
    · rw [if_neg hz] at hcall
      rcases List.mem_append.mp hcall with hl | hr
      · exact runSlice_sound call hl
      · exact ih call hr

/-- C10: every token object that `detectTokens` passes to
`addDetectedTokens` has `isERC721 = false` and a checksummed address absent
from the `ignoredTokens` list read at scan time; `addDetectedTokens` is never
called with an empty batch, and not called at all when the controller is
disabled or when `selectedAddress` is empty. -/
theorem detectTokens_invariants (checksum : String → String)
    (getBalancesInSingleCall : String → List String → List String)
    (disabled : Bool) (selectedAddress : String) (configTokens : List String)
    (tokenList : List (String × TokenInfo)) (ignoredTokens : List String) :
    (∀ call ∈ detectTokens checksum getBalancesInSingleCall disabled
        selectedAddress configTokens tokenList ignoredTokens,
      call ≠ [] ∧ ∀ tok ∈ call,
        tok.isERC721 = false ∧ checksum tok.address ∉ ignoredTokens)
    ∧ (disabled = true →
        detectTokens checksum getBalancesInSingleCall disabled
          selectedAddress configTokens tokenList ignoredTokens = [])
    ∧ (selectedAddress = "" →
        detectTokens checksum getBalancesInSingleCall disabled
          selectedAddress configTokens tokenList ignoredTokens = []) := by
  refine ⟨?_, ?_, ?_⟩
  · intro call hcall
    unfold detectTokens at hcall
    by_cases hd : disabled = true
    · rw [if_pos hd] at hcall; simp at hcall
    · rw [if_neg hd] at hcall
      simp only at hcall
      by_cases hs : selectedAddress = ""
      · rw [if_pos hs] at hcall; simp at hcall
      · rw [if_neg hs] at hcall
        exact runSlices_sound call hcall
  · intro hd
    unfold detectTokens
    rw [if_pos hd]
  · intro hs
    unfold detectTokens
    by_cases hd : disabled = true
    · rw [if_pos hd]
    · rw [if_neg hd]
      simp only
      rw [if_pos hs]

/-- Witness for C10: one qualifying token list entry is detected with
`isERC721 = false` and is not ignored; a disabled controller and an empty
selected address produce no `addDetectedTokens` call. -/
theorem detectTokens_invariants_witness :
    ([DetectedToken.mk "a" 18 "A" [] false] ≠ ([] : List DetectedToken)
      ∧ ∀ tok ∈ [DetectedToken.mk "a" 18 "A" [] false],
          tok.isERC721 = false ∧ id tok.address ∉ ([] : List String))
    ∧ detectTokens id (fun _ s => s) true "0xabc" []
        [("a", ⟨18, "A", []⟩)] [] = []
    ∧ detectTokens id (fun _ s => s) false "" []
        [("a", ⟨18, "A", []⟩)] [] = [] :=
  ⟨(detectTokens_invariants id (fun _ s => s) false "0xabc" []
      [("a", ⟨18, "A", []⟩)] []).1 [DetectedToken.mk "a" 18 "A" [] false]
      (by decide),
   (detectTokens_invariants id (fun _ s => s) true "0xabc" []
      [("a", ⟨18, "A", []⟩)] []).2.1 rfl,
   (detectTokens_invariants id (fun _ s => s) false "" []
      [("a", ⟨18, "A", []⟩)] []).2.2 rfl⟩

end Controllers
